import Mathlib

/-!
Verification of the media-converter pipeline in `src/main.py`.

The conversion worker `ConverterThread.run` (lines 39-108) is embedded as a
pure function `run` over an environment `Env` describing everything the
outside world (OpenCV capture, MoviePy audio/mux calls) can do.  The shell
helpers `MediaConverterApp.dropEvent` (lines 382-393) and the output-path
derivation in `MediaConverterApp.start_conversion` (lines 412-414) are
embedded directly.  Python string helpers `os.path.splitext`, `str.lower`,
`str.split()` and `str.endswith` are modelled faithfully (POSIX path
separator).  Python's per-frame progress `int((frame_count/total_frames)*100)`
is modelled as exact natural floor division `frame_count * 100 / total_frames`;
no claim depends on the sub-unit rounding of IEEE doubles, only on
monotonicity, bounds and the zero-divisor case, which coincide.
-/

namespace MediaConverter

/-- One decoded pixel; `c0, c1, c2` are the channel values in storage order
(BGR for frames coming out of the OpenCV decoder). -/
structure Pixel where
  c0 : Nat
  c1 : Nat
  c2 : Nat
deriving DecidableEq, Repr

/-- A decoded frame is its pixel sequence. -/
abbrev Frame := List Pixel

/-- `cv2.cvtColor(frame, cv2.COLOR_BGR2RGB)` (line 71): swap the first and
third channel of every pixel. -/
def cvtColorBGR2RGB (f : Frame) : Frame :=
  f.map (fun p => ⟨p.c2, p.c1, p.c0⟩)

/-- Index of the last occurrence of `c` in the list, if any. -/
def lastIdxOf (c : Char) : List Char → Option Nat
  | [] => none
  | a :: rest =>
    match lastIdxOf c rest with
    | some i => some (i + 1)
    | none => if a = c then some 0 else none

/-- Python `rfind`: last index, or -1 when absent. -/
def optIdxToInt : Option Nat → Int
  | some i => (i : Int)
  | none => -1

/-- `os.path.splitext` on a POSIX path: split at the last dot of the
basename, unless every character of the basename before that dot is itself a
dot (leading dots never start an extension). -/
def splitextList (p : List Char) : List Char × List Char :=
  let sepIndex := optIdxToInt (lastIdxOf '/' p)
  let dotIndex := optIdxToInt (lastIdxOf '.' p)
  if sepIndex < dotIndex then
    let d := dotIndex.toNat
    let fnStart := (sepIndex + 1).toNat
    if (List.range (d - fnStart)).any
        (fun k => decide (p.get? (fnStart + k) ≠ some '.')) then
      (p.take d, p.drop d)
    else (p, [])
  else (p, [])

/-- `os.path.splitext` on strings. -/
def splitext (p : String) : String × String :=
  let r := splitextList p.toList
  (String.mk r.1, String.mk r.2)

/-- Python `str.lower()` (ASCII case folding suffices for the paths and
labels this program handles). -/
def pyLower (s : String) : String :=
  String.mk (s.toList.map Char.toLower)

/-- An event emitted by the worker: `progress_updated.emit(p)` or
`conversion_finished.emit(ok, msg)`. -/
inductive Event where
  | progress (percent : Nat)
  | finished (success : Bool) (message : String)
deriving DecidableEq, Repr

/-- Everything the external libraries decide for one job: whether the OpenCV
capture opens, the frame-count metadata `int(cap.get(cv2.CAP_PROP_FRAME_COUNT))`,
the frames `cap.read()` yields in order before returning `ret = False`,
whether `mpy.AudioFileClip` succeeds (line 52-55), and whether the final
`write_videofile` mux call (lines 87-96) succeeds or raises with message
`muxErr`. -/
structure Env where
  capOpens : Bool
  total_frames : Nat
  frames : List Frame
  audioOpens : Bool
  muxOk : Bool
  muxErr : String
deriving Repr

/-- The message of the `ValueError` raised at line 44. -/
def decodeOpenMsg : String :=
  "Could not open video file. Make sure Windows Media Player codecs are installed."

/-- `str(ZeroDivisionError)` for Python's `/` operator. -/
def divZeroMsg : String := "division by zero"

/-- The frame loop (lines 64-75).  For each decoded frame: convert BGR to
RGB, write it to the intermediate file, increment `frame_count`, compute
`progress = int((frame_count / total_frames) * 100)` — which raises
`ZeroDivisionError` when `total_frames = 0` — and emit
`min(progress, 95)`.  Returns the emitted events, the frames written to the
intermediate file, and whether an exception escaped the loop. -/
def frameLoop (tf : Nat) : List Frame → Nat → List Event × List Frame × Except String Unit
  | [], _ => ([], [], Except.ok ())
  | f :: rest, fc =>
    let written := cvtColorBGR2RGB f
    if tf = 0 then
      ([], [written], Except.error divZeroMsg)
    else
      let fc' := fc + 1
      let ev := Event.progress (min (fc' * 100 / tf) 95)
      let r := frameLoop tf rest fc'
      (ev :: r.1, written :: r.2.1, r.2.2)

/-- Observable outcome of one `ConverterThread.run` call: the emitted event
trace, the frames written to the intermediate file, the intermediate path,
whether the intermediate file was created and whether it was deleted, and
the final output actually written (`some (path, hasAudio)` when
`write_videofile` completed). -/
structure RunResult where
  events : List Event
  writtenFrames : List Frame
  tempPath : String
  tempCreated : Bool
  tempDeleted : Bool
  finalWritten : Option (String × Bool)
deriving DecidableEq, Repr

/-- `ConverterThread.run` (lines 39-108).  The whole body sits in one
`try`; any exception becomes `conversion_finished.emit(False, str(e))`
(lines 107-108). Steps: open the capture (raise `ValueError` with
`decodeOpenMsg` if it does not open, lines 42-44); try audio extraction,
degrading to no audio on any exception (lines 52-55); create the
intermediate writer at `splitext(output)[0] + "_temp.mp4"` (lines 58-62);
run the frame loop (lines 64-75); mux via `write_videofile` with audio
attached when present (lines 80-96); delete the intermediate file, emit 100
and `finished(True, output)` (lines 102-105). -/
def run (env : Env) (input output : String) : RunResult :=
  let temp := (splitext output).1 ++ "_temp.mp4"
  if env.capOpens then
    let hasAudio := env.audioOpens
    let loop := frameLoop env.total_frames env.frames 0
    match loop.2.2 with
    | Except.error msg =>
      { events := loop.1 ++ [Event.finished false msg]
        writtenFrames := loop.2.1
        tempPath := temp
        tempCreated := true
        tempDeleted := false
        finalWritten := none }
    | Except.ok _ =>
      if env.muxOk then
        { events := loop.1 ++ [Event.progress 100, Event.finished true output]
          writtenFrames := loop.2.1
          tempPath := temp
          tempCreated := true
          tempDeleted := true
          finalWritten := some (output, hasAudio) }
      else
        { events := loop.1 ++ [Event.finished false env.muxErr]
          writtenFrames := loop.2.1
          tempPath := temp
          tempCreated := true
          tempDeleted := false
          finalWritten := none }
  else
    { events := [Event.finished false decodeOpenMsg]
      writtenFrames := []
      tempPath := temp
      tempCreated := false
      tempDeleted := false
      finalWritten := none }

/-- The extension whitelist of `dropEvent` (line 384). -/
def supported_formats : List String :=
  [".wmv", ".asf", ".mp4", ".mov", ".avi", ".mkv"]

/-- `any(files[0].lower().endswith(ext) for ext in supported_formats)`
(line 385). -/
def dropAccepts (path : String) : Bool :=
  supported_formats.any (fun ext => ext.toList.isSuffixOf (pyLower path).toList)

/-- The rejection banner set at line 392. -/
def invalidMsg : String :=
  "INVALID FILE TYPE - USE .WMV, .ASF, .MP4, .MOV, .AVI OR .MKV"

/-- The shell state the drop handler touches: the selected input file, the
enabled flag of the convert button, the progress label, and whether a
converter worker has been started (only `start_conversion` ever starts
one). -/
structure ShellState where
  input_file : String
  convertEnabled : Bool
  progressLabel : String
  converterStarted : Bool
deriving DecidableEq, Repr

/-- `MediaConverterApp.dropEvent` (lines 382-393): if the dropped list is
nonempty and its first path passes the extension gate, select it, enable
the convert button and show the ready banner; otherwise only show the
invalid-type banner.  No branch starts a worker. -/
def dropEvent (st : ShellState) (files : List String) : ShellState :=
  match files with
  | [] => { st with progressLabel := invalidMsg }
  | f :: _ =>
    if dropAccepts f then
      { st with input_file := f, convertEnabled := true,
                progressLabel := "READY TO CONVERT" }
    else
      { st with progressLabel := invalidMsg }

/-- Python `str.split()` with no argument: split on runs of whitespace and
drop empty pieces.  Auxiliary: `cur` holds the characters of the word in
progress, reversed. -/
def splitWsAux : List Char → List Char → List (List Char)
  | [], cur => if cur.isEmpty then [] else [cur.reverse]
  | c :: rest, cur =>
    if c.isWhitespace then
      if cur.isEmpty then splitWsAux rest []
      else cur.reverse :: splitWsAux rest []
    else splitWsAux rest (c :: cur)

/-- Python `str.split()`. -/
def pySplit (s : String) : List String :=
  (splitWsAux s.toList []).map String.mk

/-- `self.format_combo.currentText().split()[0].lower()` (line 413): strip
everything from the first whitespace on, and lower-case. -/
def selectedFormat (label : String) : String :=
  pyLower ((pySplit label).headD "")

/-- The items of the format combo box (line 205). -/
def formatLabels : List String :=
  ["MP4 (Recommended)", "MOV", "AVI", "MKV"]

/-- `output_file = os.path.splitext(self.input_file)[0] + '.' + output_format`
(line 414). -/
def deriveOutputPath (input_file label : String) : String :=
  (splitext input_file).1 ++ "." ++ selectedFormat label

/-- The percents of the progress events of a trace, in order. -/
def progressPercents : List Event → List Nat
  | [] => []
  | Event.progress p :: rest => p :: progressPercents rest
  | Event.finished _ _ :: rest => progressPercents rest

/-- The percent sequence the frame loop emits when `total_frames = tf ≠ 0`:
`min ((fc + k) * 100 / tf) 95` for `k = 1, ..., n`. -/
def percs (tf : Nat) : Nat → Nat → List Nat
  | 0, _ => []
  | n + 1, fc => min ((fc + 1) * 100 / tf) 95 :: percs tf n (fc + 1)

lemma progressPercents_append (l₁ l₂ : List Event) :
    progressPercents (l₁ ++ l₂) = progressPercents l₁ ++ progressPercents l₂ := by
  induction l₁ with
  | nil => rfl
  | cons e rest ih => cases e <;> simp [progressPercents, ih]

lemma frameLoop_ok_of_ne (tf : Nat) (h : tf ≠ 0) (fs : List Frame) :
    ∀ fc, (frameLoop tf fs fc).2.2 = Except.ok () := by
  induction fs with
  | nil => intro fc; rfl
  | cons f rest ih =>
    intro fc
    simp only [frameLoop, h, if_false]
    exact ih (fc + 1)

lemma frameLoop_zero_cons (f : Frame) (rest : List Frame) (fc : Nat) :
    frameLoop 0 (f :: rest) fc = ([], [cvtColorBGR2RGB f], Except.error divZeroMsg) := by
  simp [frameLoop]

lemma frameLoop_ok_cases (tf : Nat) (fs : List Frame) (fc : Nat)
    (hok : (frameLoop tf fs fc).2.2 = Except.ok ()) : fs = [] ∨ tf ≠ 0 := by
  cases fs with
  | nil => exact Or.inl rfl
  | cons f rest =>
    refine Or.inr fun h0 => ?_
    rw [h0, frameLoop_zero_cons] at hok
    exact Except.noConfusion hok

lemma frameLoop_written_of_ne (tf : Nat) (h : tf ≠ 0) (fs : List Frame) :
    ∀ fc, (frameLoop tf fs fc).2.1 = fs.map cvtColorBGR2RGB := by
  induction fs with
  | nil => intro fc; rfl
  | cons f rest ih =>
    intro fc
    simp only [frameLoop, h, if_false, List.map_cons]
    rw [ih (fc + 1)]

lemma frameLoop_mem_le (tf : Nat) (h : tf ≠ 0) (fs : List Frame) :
    ∀ fc e, e ∈ (frameLoop tf fs fc).1 → ∃ p, p ≤ 95 ∧ e = Event.progress p := by
  induction fs with
  | nil => intro fc e he; exact absurd he (List.not_mem_nil e)
  | cons f rest ih =>
    intro fc e he
    simp only [frameLoop, h, if_false, List.mem_cons] at he
    rcases he with he | he
    · exact ⟨min ((fc + 1) * 100 / tf) 95, min_le_right _ _, he⟩
    · exact ih (fc + 1) e he

lemma frameLoop_percents_of_ne (tf : Nat) (h : tf ≠ 0) (fs : List Frame) :
    ∀ fc, progressPercents (frameLoop tf fs fc).1 = percs tf fs.length fc := by
  induction fs with
  | nil => intro fc; rfl
  | cons f rest ih =>
    intro fc
    simp only [frameLoop, h, if_false, List.length_cons, percs, progressPercents]
    rw [ih (fc + 1)]

lemma frameLoop_map_progress (tf : Nat) (fs : List Frame) :
    ∀ fc, (progressPercents (frameLoop tf fs fc).1).map Event.progress
      = (frameLoop tf fs fc).1 := by
  induction fs with
  | nil => intro fc; rfl
  | cons f rest ih =>
    intro fc
    by_cases h : tf = 0
    · simp [frameLoop, h, progressPercents]
    · simp only [frameLoop, h, if_false, progressPercents, List.map_cons]
      rw [ih (fc + 1)]

lemma percs_mem_le (tf : Nat) : ∀ n fc p, p ∈ percs tf n fc → p ≤ 95 := by
  intro n
  induction n with
  | zero => intro fc p hp; exact absurd hp (List.not_mem_nil p)
  | succ m ih =>
    intro fc p hp
    simp only [percs, List.mem_cons] at hp
    rcases hp with hp | hp
    · rw [hp]; exact min_le_right _ _
    · exact ih (fc + 1) p hp

lemma percs_chain (tf : Nat) : ∀ n fc, List.Chain' (fun a b => a ≤ b) (percs tf n fc) := by
  intro n
  induction n with
  | zero => intro fc; simp [percs]
  | succ m ih =>
    intro fc
    rw [percs, List.chain'_cons']
    refine ⟨fun y hy => ?_, ih (fc + 1)⟩
    cases m with
    | zero => simp [percs] at hy
    | succ k =>
      simp only [percs, List.head?_cons, Option.mem_def, Option.some.injEq] at hy
      rw [← hy]
      exact min_le_min (Nat.div_le_div_right (mul_le_mul_right' (by omega) 100)) le_rfl

lemma run_capClosed (env : Env) (i o : String) (hcap : env.capOpens = false) :
    run env i o =
      { events := [Event.finished false decodeOpenMsg]
        writtenFrames := []
        tempPath := (splitext o).1 ++ "_temp.mp4"
        tempCreated := false
        tempDeleted := false
        finalWritten := none } := by
  simp [run, hcap]

lemma run_divZero (env : Env) (i o : String) (hcap : env.capOpens = true)
    (h0 : env.total_frames = 0) (f : Frame) (rest : List Frame)
    (hfr : env.frames = f :: rest) :
    run env i o =
      { events := [Event.finished false divZeroMsg]
        writtenFrames := [cvtColorBGR2RGB f]
        tempPath := (splitext o).1 ++ "_temp.mp4"
        tempCreated := true
        tempDeleted := false
        finalWritten := none } := by
  simp [run, hcap, h0, hfr, frameLoop_zero_cons]

lemma run_err (env : Env) (i o : String) (hcap : env.capOpens = true) (msg : String)
    (herr : (frameLoop env.total_frames env.frames 0).2.2 = Except.error msg) :
    run env i o =
      { events := (frameLoop env.total_frames env.frames 0).1 ++ [Event.finished false msg]
        writtenFrames := (frameLoop env.total_frames env.frames 0).2.1
        tempPath := (splitext o).1 ++ "_temp.mp4"
        tempCreated := true
        tempDeleted := false
        finalWritten := none } := by
  simp [run, hcap, herr]

lemma run_ok_muxOk (env : Env) (i o : String) (hcap : env.capOpens = true)
    (hok : (frameLoop env.total_frames env.frames 0).2.2 = Except.ok ())
    (hmux : env.muxOk = true) :
    run env i o =
      { events := (frameLoop env.total_frames env.frames 0).1
          ++ [Event.progress 100, Event.finished true o]
        writtenFrames := (frameLoop env.total_frames env.frames 0).2.1
        tempPath := (splitext o).1 ++ "_temp.mp4"
        tempCreated := true
        tempDeleted := true
        finalWritten := some (o, env.audioOpens) } := by
  simp [run, hcap, hok, hmux]

lemma run_ok_muxFail (env : Env) (i o : String) (hcap : env.capOpens = true)
    (hok : (frameLoop env.total_frames env.frames 0).2.2 = Except.ok ())
    (hmux : env.muxOk = false) :
    run env i o =
      { events := (frameLoop env.total_frames env.frames 0).1
          ++ [Event.finished false env.muxErr]
        writtenFrames := (frameLoop env.total_frames env.frames 0).2.1
        tempPath := (splitext o).1 ++ "_temp.mp4"
        tempCreated := true
        tempDeleted := false
        finalWritten := none } := by
  simp [run, hcap, hok, hmux]

/-- From a trace ending in a success event, recover which branch of `run`
was taken: the capture opened, the frame loop did not raise, the mux
succeeded. -/
lemma success_conditions (env : Env) (i o : String)
    (hsucc : ∃ msg, ((run env i o).events).getLast? = some (Event.finished true msg)) :
    env.capOpens = true ∧ (frameLoop env.total_frames env.frames 0).2.2 = Except.ok ()
      ∧ env.muxOk = true := by
  obtain ⟨msg, hlast⟩ := hsucc
  by_cases hcap : env.capOpens = true
  · cases hres : (frameLoop env.total_frames env.frames 0).2.2 with
    | error m =>
      rw [run_err env i o hcap m hres] at hlast
      simp only [← List.concat_eq_append, List.getLast?_concat, Option.some.injEq] at hlast
      exact absurd hlast (by simp)
    | ok u =>
      cases u
      by_cases hmux : env.muxOk = true
      · refine ⟨hcap, ?_, hmux⟩
        rfl
      · rw [run_ok_muxFail env i o hcap hres (by simpa using hmux)] at hlast
        simp only [← List.concat_eq_append, List.getLast?_concat, Option.some.injEq] at hlast
        exact absurd hlast (by simp)
  · rw [run_capClosed env i o (by simpa using hcap)] at hlast
    simp at hlast

lemma strMk_append (a b : List Char) : String.mk a ++ String.mk b = String.mk (a ++ b) := rfl

lemma strMk_toList (s : String) : String.mk s.toList = s := rfl

lemma str_append_assoc (a b c : String) : (a ++ b) ++ c = a ++ (b ++ c) := by
  cases a with
  | mk xa =>
    cases b with
    | mk xb =>
      cases c with
      | mk xc =>
        show String.mk ((xa ++ xb) ++ xc) = String.mk (xa ++ (xb ++ xc))
        rw [List.append_assoc]

lemma splitextList_fst_append_snd (l : List Char) :
    (splitextList l).1 ++ (splitextList l).2 = l := by
  simp only [splitextList]
  split
  · split
    · exact List.take_append_drop _ _
    · simp
  · simp

lemma splitext_fst_append_snd (p : String) : (splitext p).1 ++ (splitext p).2 = p := by
  show String.mk (splitextList p.toList).1 ++ String.mk (splitextList p.toList).2 = p
  rw [strMk_append, splitextList_fst_append_snd, strMk_toList]

/-- A two-frame job on which every external step succeeds. -/
def envC1 : Env :=
  { capOpens := true
    total_frames := 2
    frames := [[⟨10, 20, 30⟩], [⟨40, 50, 60⟩]]
    audioOpens := true
    muxOk := true
    muxErr := "" }

/-- C1: on every run that terminates in success, the sequence of emitted
progress percents is monotonically non-decreasing, every event of the
frame-encode loop is a progress event with percent at most 95, and the last
emitted progress percent is exactly 100. -/
theorem progress_trace_monotone_capped_final100 (env : Env) (input output : String)
    (hsucc : ∃ msg, ((run env input output).events).getLast?
      = some (Event.finished true msg)) :
    List.Chain' (fun a b => a ≤ b) (progressPercents (run env input output).events)
    ∧ (∀ e ∈ (frameLoop env.total_frames env.frames 0).1, ∃ p, p ≤ 95 ∧ e = Event.progress p)
    ∧ (progressPercents (run env input output).events).getLast? = some 100 := by
  obtain ⟨hcap, hok, hmux⟩ := success_conditions env input output hsucc
  have hev : (run env input output).events
      = (frameLoop env.total_frames env.frames 0).1
        ++ [Event.progress 100, Event.finished true output] := by
    rw [run_ok_muxOk env input output hcap hok hmux]
  rcases frameLoop_ok_cases _ _ _ hok with hfs | htf
  · refine ⟨?_, ?_, ?_⟩
    · rw [hev, hfs]
      exact List.chain'_singleton 100
    · intro e he
      rw [hfs] at he
      exact absurd he (List.not_mem_nil e)
    · rw [hev, hfs]
      rfl
  · have hpp : progressPercents (run env input output).events
        = percs env.total_frames env.frames.length 0 ++ [100] := by
      rw [hev, progressPercents_append, frameLoop_percents_of_ne _ htf]
      rfl
    refine ⟨?_, ?_, ?_⟩
    · rw [hpp]
      refine List.Chain'.append (percs_chain _ _ _) (List.chain'_singleton _) ?_
      intro x hx y hy
      have hx95 : x ≤ 95 := percs_mem_le _ _ _ _ (List.mem_of_getLast?_eq_some hx)
      simp only [List.head?_cons, Option.mem_def, Option.some.injEq] at hy
      omega
    · intro e he
      exact frameLoop_mem_le _ htf _ _ e he
    · rw [hpp, List.getLast?_concat]

/-- Witness for C1 at a concrete successful two-frame job. -/
theorem progress_trace_monotone_capped_final100_witness :
    (∃ msg, ((run envC1 "clip.wmv" "clip.mp4").events).getLast?
      = some (Event.finished true msg))
    ∧ (List.Chain' (fun a b => a ≤ b)
        (progressPercents (run envC1 "clip.wmv" "clip.mp4").events)
      ∧ (∀ e ∈ (frameLoop envC1.total_frames envC1.frames 0).1,
          ∃ p, p ≤ 95 ∧ e = Event.progress p)
      ∧ (progressPercents (run envC1 "clip.wmv" "clip.mp4").events).getLast? = some 100) :=
  ⟨⟨"clip.mp4", by decide⟩,
   progress_trace_monotone_capped_final100 envC1 "clip.wmv" "clip.mp4" ⟨"clip.mp4", by decide⟩⟩

/-- C2: when the input cannot be opened as a video source, the run emits no
progress event and exactly one failure event whose message is the
decode-open message, which mentions codec support. -/
theorem decode_open_failure_trace (env : Env) (input output : String)
    (hcap : env.capOpens = false) :
    (run env input output).events = [Event.finished false decodeOpenMsg]
    ∧ progressPercents (run env input output).events = []
    ∧ "codec".toList <:+: decodeOpenMsg.toList := by
  rw [run_capClosed env input output hcap]
  exact ⟨rfl, rfl,
    ⟨"Could not open video file. Make sure Windows Media Player ".toList,
     "s are installed.".toList, by decide⟩⟩

/-- An environment whose capture does not open (e.g. a nonexistent path). -/
def envC2 : Env :=
  { capOpens := false, total_frames := 0, frames := [], audioOpens := false
    muxOk := false, muxErr := "" }

/-- Witness for C2 at a concrete unopenable input. -/
theorem decode_open_failure_trace_witness :
    envC2.capOpens = false
    ∧ (run envC2 "missing.wmv" "missing.mp4").events
      = [Event.finished false decodeOpenMsg] :=
  ⟨rfl, (decode_open_failure_trace envC2 "missing.wmv" "missing.mp4" rfl).1⟩

/-- C3: on every environment whatsoever, the run's trace is zero or more
progress events followed by exactly one finished event: every exception is
converted into that terminal event instead of escaping. -/
theorem trace_shape_progress_then_finished (env : Env) (input output : String) :
    ∃ ps : List Nat, ∃ ok : Bool, ∃ msg : String,
      (run env input output).events = ps.map Event.progress ++ [Event.finished ok msg] := by
  by_cases hcap : env.capOpens = true
  · cases hres : (frameLoop env.total_frames env.frames 0).2.2 with
    | error m =>
      refine ⟨progressPercents (frameLoop env.total_frames env.frames 0).1, false, m, ?_⟩
      rw [run_err env input output hcap m hres,
        frameLoop_map_progress env.total_frames env.frames 0]
    | ok u =>
      cases u
      by_cases hmux : env.muxOk = true
      · refine ⟨progressPercents (frameLoop env.total_frames env.frames 0).1 ++ [100],
          true, output, ?_⟩
        rw [run_ok_muxOk env input output hcap (by rw [hres]) hmux, List.map_append,
          frameLoop_map_progress env.total_frames env.frames 0]
        simp
      · refine ⟨progressPercents (frameLoop env.total_frames env.frames 0).1, false,
          env.muxErr, ?_⟩
        rw [run_ok_muxFail env input output hcap (by rw [hres]) (by simpa using hmux),
          frameLoop_map_progress env.total_frames env.frames 0]
  · refine ⟨[], false, decodeOpenMsg, ?_⟩
    rw [run_capClosed env input output (by simpa using hcap)]
    rfl

/-- C4: when audio extraction fails but everything else succeeds, the job
completes successfully and the final output is written without an audio
track; no failure event is emitted. -/
theorem audio_failure_degrades_silently (env : Env) (input output : String)
    (hcap : env.capOpens = true) (haud : env.audioOpens = false)
    (hok : (frameLoop env.total_frames env.frames 0).2.2 = Except.ok ())
    (hmux : env.muxOk = true) :
    (run env input output).finalWritten = some (output, false)
    ∧ ((run env input output).events).getLast? = some (Event.finished true output) := by
  rw [run_ok_muxOk env input output hcap hok hmux]
  constructor
  · rw [haud]
  · show ((frameLoop env.total_frames env.frames 0).1
      ++ [Event.progress 100, Event.finished true output]).getLast? = _
    rw [List.getLast?_append_cons]
    rfl

/-- A job whose audio extraction fails while everything else succeeds. -/
def envC4 : Env :=
  { capOpens := true, total_frames := 2, frames := [[⟨1, 2, 3⟩], [⟨4, 5, 6⟩]]
    audioOpens := false, muxOk := true, muxErr := "" }

/-- Witness for C4 at a concrete job without extractable audio. -/
theorem audio_failure_degrades_silently_witness :
    envC4.audioOpens = false
    ∧ (run envC4 "clip.wmv" "clip.mp4").finalWritten = some ("clip.mp4", false) :=
  ⟨rfl, (audio_failure_degrades_silently envC4 "clip.wmv" "clip.mp4" rfl rfl rfl rfl).1⟩

/-- C5: in every run that decodes frames without a division error, the
frames written to the intermediate file are exactly the decoded frames with
their channel order converted from BGR to RGB. -/
theorem frames_written_bgr2rgb (env : Env) (input output : String)
    (hcap : env.capOpens = true)
    (hdiv : env.frames = [] ∨ env.total_frames ≠ 0) :
    (run env input output).writtenFrames = env.frames.map cvtColorBGR2RGB := by
  have hok : (frameLoop env.total_frames env.frames 0).2.2 = Except.ok () := by
    rcases hdiv with hfs | htf
    · rw [hfs]
      rfl
    · exact frameLoop_ok_of_ne _ htf _ 0
  have hwritten : (frameLoop env.total_frames env.frames 0).2.1
      = env.frames.map cvtColorBGR2RGB := by
    rcases hdiv with hfs | htf
    · rw [hfs]
      rfl
    · exact frameLoop_written_of_ne _ htf _ 0
  by_cases hmux : env.muxOk = true
  · rw [run_ok_muxOk env input output hcap hok hmux]
    exact hwritten
  · rw [run_ok_muxFail env input output hcap hok (by simpa using hmux)]
    exact hwritten

/-- A two-frame job for the C5 witness. -/
def envC5 : Env :=
  { capOpens := true, total_frames := 2, frames := [[⟨1, 2, 3⟩], [⟨4, 5, 6⟩]]
    audioOpens := true, muxOk := true, muxErr := "" }

/-- Witness for C5 at a concrete two-frame job. -/
theorem frames_written_bgr2rgb_witness :
    (envC5.frames = [] ∨ envC5.total_frames ≠ 0)
    ∧ (run envC5 "clip.wmv" "clip.mp4").writtenFrames
      = envC5.frames.map cvtColorBGR2RGB :=
  ⟨Or.inr (by decide),
   frames_written_bgr2rgb envC5 "clip.wmv" "clip.mp4" rfl (Or.inr (by decide))⟩

/-- C6: the intermediate path is the output stem followed by `_temp.mp4`;
on the success path the intermediate file is deleted after the final write,
and when the final mux step raises, the file was created but is not
deleted. -/
theorem temp_file_path_and_cleanup (env : Env) (input output : String)
    (hcap : env.capOpens = true)
    (hok : (frameLoop env.total_frames env.frames 0).2.2 = Except.ok ()) :
    (run env input output).tempPath = (splitext output).1 ++ "_temp.mp4"
    ∧ (env.muxOk = true →
        (run env input output).tempCreated = true
        ∧ (run env input output).tempDeleted = true)
    ∧ (env.muxOk = false →
        (run env input output).tempCreated = true
        ∧ (run env input output).tempDeleted = false) := by
  refine ⟨?_, fun hmux => ?_, fun hmux => ?_⟩
  · by_cases hmux : env.muxOk = true
    · rw [run_ok_muxOk env input output hcap hok hmux]
    · rw [run_ok_muxFail env input output hcap hok (by simpa using hmux)]
  · rw [run_ok_muxOk env input output hcap hok hmux]
    exact ⟨rfl, rfl⟩
  · rw [run_ok_muxFail env input output hcap hok hmux]
    exact ⟨rfl, rfl⟩

/-- A one-frame job whose mux step succeeds. -/
def envC6ok : Env :=
  { capOpens := true, total_frames := 1, frames := [[⟨1, 2, 3⟩]]
    audioOpens := true, muxOk := true, muxErr := "" }

/-- A one-frame job whose mux step raises. -/
def envC6fail : Env :=
  { capOpens := true, total_frames := 1, frames := [[⟨1, 2, 3⟩]]
    audioOpens := true, muxOk := false, muxErr := "mux failed" }

/-- Witness for C6 at one succeeding and one mux-failing job. -/
theorem temp_file_path_and_cleanup_witness :
    (run envC6ok "a.wmv" "a.mp4").tempPath = "a_temp.mp4"
    ∧ (run envC6ok "a.wmv" "a.mp4").tempDeleted = true
    ∧ (run envC6fail "a.wmv" "a.mp4").tempCreated = true
    ∧ (run envC6fail "a.wmv" "a.mp4").tempDeleted = false :=
  ⟨by rw [(temp_file_path_and_cleanup envC6ok "a.wmv" "a.mp4" rfl rfl).1]
      decide,
   ((temp_file_path_and_cleanup envC6ok "a.wmv" "a.mp4" rfl rfl).2.1 rfl).2,
   ((temp_file_path_and_cleanup envC6fail "a.wmv" "a.mp4" rfl rfl).2.2 rfl).1,
   ((temp_file_path_and_cleanup envC6fail "a.wmv" "a.mp4" rfl rfl).2.2 rfl).2⟩

/-- C7: for each of the four combo-box labels, the derived output path is
the input stem plus a dot plus one of `mp4`, `mov`, `avi`, `mkv` — the
label's trailing text is stripped and the extension lower-cased. -/
theorem output_path_derivation (input label : String) (h : label ∈ formatLabels) :
    ∃ ext, ext ∈ ["mp4", "mov", "avi", "mkv"]
      ∧ deriveOutputPath input label = (splitext input).1 ++ "." ++ ext := by
  fin_cases h
  · refine ⟨"mp4", by decide, ?_⟩
    have hsel : selectedFormat "MP4 (Recommended)" = "mp4" := by decide
    show (splitext input).1 ++ "." ++ selectedFormat "MP4 (Recommended)"
      = (splitext input).1 ++ "." ++ "mp4"
    rw [hsel]
  · refine ⟨"mov", by decide, ?_⟩
    have hsel : selectedFormat "MOV" = "mov" := by decide
    show (splitext input).1 ++ "." ++ selectedFormat "MOV"
      = (splitext input).1 ++ "." ++ "mov"
    rw [hsel]
  · refine ⟨"avi", by decide, ?_⟩
    have hsel : selectedFormat "AVI" = "avi" := by decide
    show (splitext input).1 ++ "." ++ selectedFormat "AVI"
      = (splitext input).1 ++ "." ++ "avi"
    rw [hsel]
  · refine ⟨"mkv", by decide, ?_⟩
    have hsel : selectedFormat "MKV" = "mkv" := by decide
    show (splitext input).1 ++ "." ++ selectedFormat "MKV"
      = (splitext input).1 ++ "." ++ "mkv"
    rw [hsel]

/-- Witness for C7 at the recommended MP4 label. -/
theorem output_path_derivation_witness :
    "MP4 (Recommended)" ∈ formatLabels
    ∧ ∃ ext, ext ∈ ["mp4", "mov", "avi", "mkv"]
      ∧ deriveOutputPath "movie.wmv" "MP4 (Recommended)"
        = (splitext "movie.wmv").1 ++ "." ++ ext :=
  ⟨by decide, output_path_derivation "movie.wmv" "MP4 (Recommended)" (by decide)⟩

/-- C8: the drop gate accepts a path exactly when its lower-cased form ends
in one of the six whitelisted extensions; a rejected drop changes nothing
but the banner (in particular the selected file, the convert button and the
worker flag are untouched), and an accepted drop selects the file and
enables the button. -/
theorem drop_gate_extension_whitelist (st : ShellState) (f : String) (rest : List String) :
    (dropAccepts f = true
      ↔ ∃ ext, ext ∈ supported_formats ∧ ext.toList <:+ (pyLower f).toList)
    ∧ (dropAccepts f = false →
        dropEvent st (f :: rest) = { st with progressLabel := invalidMsg })
    ∧ (dropAccepts f = true →
        dropEvent st (f :: rest)
          = { st with input_file := f, convertEnabled := true,
                      progressLabel := "READY TO CONVERT" }) := by
  refine ⟨?_, fun h => ?_, fun h => ?_⟩
  · simp [dropAccepts, List.any_eq_true]
  · simp [dropEvent, h]
  · simp [dropEvent, h]

/-- A fresh shell state with nothing selected. -/
def st0 : ShellState :=
  { input_file := "", convertEnabled := false, progressLabel := ""
    converterStarted := false }

/-- Witness for C8 at a rejected `.txt` drop. -/
theorem drop_gate_extension_whitelist_witness :
    dropAccepts "notes.txt" = false
    ∧ dropEvent st0 ["notes.txt"] = { st0 with progressLabel := invalidMsg } :=
  ⟨by decide, (drop_gate_extension_whitelist st0 "notes.txt" []).2.1 (by decide)⟩

/-- C9 counterexample: for input `/video/a.MP4` and the MP4 label the
lower-cased extension equals the container extension, yet the derived
output path differs from the input path (it is lower-cased), so the claim
as stated is false. -/
theorem overwrite_claim_cex :
    pyLower (splitext "/video/a.MP4").2 = "." ++ selectedFormat "MP4 (Recommended)"
    ∧ deriveOutputPath "/video/a.MP4" "MP4 (Recommended)" ≠ "/video/a.MP4" := by
  exact ⟨by decide, by decide⟩

/-- C9 (amended): when the input's extension equals the selected
container's dot-extension exactly, the derived output path is the input
path itself, and on a successful run the final mux write targets the
original input file. -/
theorem overwrite_when_extension_exact (input label : String)
    (h : (splitext input).2 = "." ++ selectedFormat label) :
    deriveOutputPath input label = input
    ∧ ∀ env : Env, env.capOpens = true →
        (frameLoop env.total_frames env.frames 0).2.2 = Except.ok () →
        env.muxOk = true →
        (run env input (deriveOutputPath input label)).finalWritten
          = some (input, env.audioOpens) := by
  have hd : deriveOutputPath input label = input := by
    show (splitext input).1 ++ "." ++ selectedFormat label = input
    rw [str_append_assoc, ← h]
    exact splitext_fst_append_snd input
  refine ⟨hd, fun env hcap hok hmux => ?_⟩
  rw [hd, run_ok_muxOk env input input hcap hok hmux]

/-- A successful one-frame job for the C9 witness. -/
def envC9 : Env :=
  { capOpens := true, total_frames := 1, frames := [[⟨9, 8, 7⟩]]
    audioOpens := true, muxOk := true, muxErr := "" }

/-- Witness for the amended C9 at `/video/a.mp4` converted to mp4. -/
theorem overwrite_when_extension_exact_witness :
    (splitext "/video/a.mp4").2 = "." ++ selectedFormat "MP4 (Recommended)"
    ∧ deriveOutputPath "/video/a.mp4" "MP4 (Recommended)" = "/video/a.mp4"
    ∧ (run envC9 "/video/a.mp4"
        (deriveOutputPath "/video/a.mp4" "MP4 (Recommended)")).finalWritten
      = some ("/video/a.mp4", true) :=
  ⟨by decide,
   (overwrite_when_extension_exact "/video/a.mp4" "MP4 (Recommended)" (by decide)).1,
   (overwrite_when_extension_exact "/video/a.mp4" "MP4 (Recommended)" (by decide)).2
     envC9 rfl rfl rfl⟩

/-- A job with zero reported frames, no decodable frame, and a succeeding
mux step. -/
def envC10cex : Env :=
  { capOpens := true, total_frames := 0, frames := [], audioOpens := false
    muxOk := true, muxErr := "" }

/-- C10 counterexample: with zero reported frames and no decoded frame the
pipeline still emits a progress event — the final 100 of the mux phase —
when the mux succeeds, refuting the literal "no progress event is
emitted". -/
theorem zero_frames_progress_cex :
    Event.progress 100 ∈ (run envC10cex "in.wmv" "out.mp4").events := by decide

/-- C10 (amended): with `total_frames = 0`, if at least one frame decodes
the first progress computation raises a division-by-zero error which is
caught and reported as the terminal failure; if no frame decodes, the loop
emits no progress event and every progress event of the run has percent
100 (the mux-phase event). -/
theorem zero_total_frames_division (env : Env) (input output : String)
    (hcap : env.capOpens = true) (h0 : env.total_frames = 0) :
    (env.frames ≠ [] →
      (run env input output).events = [Event.finished false divZeroMsg])
    ∧ (env.frames = [] →
      (frameLoop env.total_frames env.frames 0).1 = []
      ∧ ∀ p, Event.progress p ∈ (run env input output).events → p = 100) := by
  constructor
  · intro hne
    cases hfr : env.frames with
    | nil => exact absurd hfr hne
    | cons f rest =>
      rw [run_divZero env input output hcap h0 f rest hfr]
  · intro hfr
    have hok : (frameLoop env.total_frames env.frames 0).2.2 = Except.ok () := by
      rw [hfr]
      rfl
    constructor
    · rw [hfr]
      rfl
    · intro p hp
      by_cases hmux : env.muxOk = true
      · rw [run_ok_muxOk env input output hcap hok hmux, hfr] at hp
        simp [frameLoop] at hp
        exact hp
      · rw [run_ok_muxFail env input output hcap hok (by simpa using hmux), hfr] at hp
        simp [frameLoop] at hp

/-- A job whose container metadata reports zero frames while one frame
decodes. -/
def envC10w : Env :=
  { capOpens := true, total_frames := 0, frames := [[⟨0, 0, 0⟩]]
    audioOpens := true, muxOk := true, muxErr := "" }

/-- Witness for the amended C10 at a one-frame job with zero reported
frames. -/
theorem zero_total_frames_division_witness :
    envC10w.total_frames = 0 ∧ envC10w.frames ≠ []
    ∧ (run envC10w "in.wmv" "out.mp4").events = [Event.finished false divZeroMsg] :=
  ⟨rfl, by decide,
   (zero_total_frames_division envC10w "in.wmv" "out.mp4" rfl rfl).1 (by decide)⟩

end MediaConverter
